import Mathlib

/-!
Verification of the URL-shortener service (Go sources under internal/).

The development shallowly embeds the code generator (internal/id/generator.go),
the Redis cache layer (internal/cache), the Postgres repository (internal/repo),
the shortener service orchestration (internal/service/shortener.go) and the
rate-limiter sweeper (internal/rate/limiter.go).  Machine randomness
(crypto/rand draws, time-derived indices) is modelled by oracle functions
supplying the drawn indices; wall-clock instants are integers (seconds).
-/

namespace UrlShortener

/-- The base-62 alphabet, as the constant base62Chars of generator.go. -/
def base62Chars : List Char :=
  ("0123456789ABCDEFGHIJKLMNOPQRSTUVWXYZabcdefghijklmnopqrstuvwxyz").data

/-- Indexing into the alphabet, as base62Chars[idx] in the Go code; all call
sites produce an index below 62, which the modulus makes explicit. -/
def b62 (n : Nat) : Char := base62Chars.getD (n % 62) ('0')

/-- Little-endian digit expansion of toBase62's division loop
(generator.go, toBase62): emit base62Chars[n mod 62] then recurse on n / 62;
zero input produces no digits, exactly as the Go loop body never runs. -/
def toBase62Digits (n : Nat) : List Char :=
  if h : n = 0 then []
  else b62 (n % 62) :: toBase62Digits (n / 62)
decreasing_by exact Nat.div_lt_self (Nat.pos_of_ne_zero h) (by norm_num)

/-- toBase62 of generator.go on the numeric value of the input bytes:
the division loop followed by the reversal. -/
def toBase62 (n : Nat) : List Char := (toBase62Digits n).reverse

/-- generateRandomSuffix of generator.go: length random base-62 characters;
the oracle stands for the crypto/rand draws (each taken mod 62). -/
def generateRandomSuffix (len : Nat) (oracle : Nat → Nat) : List Char :=
  (List.range len).map (fun i => b62 (oracle i))

/-- GenerateCode of generator.go: base-62 encode the unique id value, pad with
random base-62 characters up to codeLength, then truncate to codeLength. -/
def generateCode (codeLength : Nat) (idVal : Nat) (oracle : Nat → Nat) : List Char :=
  let code := toBase62 idVal
  let code :=
    if code.length < codeLength then
      code ++ generateRandomSuffix (codeLength - code.length) oracle
    else code
  if codeLength < code.length then code.take codeLength else code

/-- Go's unicode.IsSpace on the ASCII range, as used by strings.TrimSpace. -/
def goIsSpace (c : Char) : Bool :=
  c = ' ' || c = '\t' || c = '\n' || c = '\x0b' || c = '\x0c' || c = '\r'

/-- strings.TrimSpace: strip leading and trailing whitespace. -/
def trimSpace (s : List Char) : List Char :=
  ((s.dropWhile goIsSpace).reverse.dropWhile goIsSpace).reverse

/-- The alphanumeric test of sanitizeChar (generator.go). -/
def isAlnumChar (c : Char) : Bool :=
  (('0' ≤ c && c ≤ '9') || ('A' ≤ c && c ≤ 'Z') || ('a' ≤ c && c ≤ 'z'))

/-- sanitizeChar of generator.go: keep characters in [0-9A-Za-z]; REPLACE any
other character with a base-62 character drawn from the time-derived index
(modelled by the oracle value for this position). -/
def sanitizeChar (oracleVal : Nat) (c : Char) : Char :=
  if isAlnumChar c then c else b62 oracleVal

/-- strings.Map(g.sanitizeChar, s) with a positional oracle for the
time-derived replacement indices. -/
def sanitizeMap (oracle : Nat → Nat) (s : List Char) : List Char :=
  s.enum.map (fun p => sanitizeChar (oracle p.1) p.2)

/-- GenerateCustomCode of generator.go: trim whitespace; empty after trimming
falls back to GenerateCode; otherwise sanitize each character, pad with random
base-62 characters up to codeLength, truncate to codeLength. -/
def generateCustomCode (codeLength : Nat) (custom : List Char)
    (sanOracle padOracle : Nat → Nat) (idVal : Nat) (genOracle : Nat → Nat) :
    List Char :=
  let clean := trimSpace custom
  if clean.length = 0 then generateCode codeLength idVal genOracle
  else
    let clean := sanitizeMap sanOracle clean
    let clean :=
      if clean.length < codeLength then
        clean ++ generateRandomSuffix (codeLength - clean.length) padOracle
      else clean
    if codeLength < clean.length then clean.take codeLength else clean

/-!  Data model: rows of the short_urls table (models.ShortURL restricted to
the fields the service logic reads) and serialized cache entries
(cache.CachedURL).  Timestamps are integers. -/

/-- A short_urls row: code, long_url, created_at, expire_at, is_deleted. -/
structure Row where
  code : String
  longURL : String
  createdAt : Int
  expireAt : Option Int
  isDeleted : Bool
deriving DecidableEq

/-- CachedURL of the Redis layer: long_url, expire_at, is_deleted, created_at. -/
structure CachedURL where
  longURL : String
  expireAt : Option Int
  isDeleted : Bool
  createdAt : Int
deriving DecidableEq

/-- time.Now().After(t) at instant now: strictly past the optional deadline. -/
def isPast (t : Option Int) (now : Int) : Bool :=
  match t with
  | some e => decide (e < now)
  | none => false

/-- The cache tier: an association list of live keys when the Redis backend is
reachable, or a failing backend (every call errors).  Redis-side TTL aging is
not modelled; the TTL arithmetic of RedisCache.Set is analysed separately by
effectiveTTL below. -/
inductive Cache where
  | up (entries : List (String × CachedURL))
  | down
deriving DecidableEq

/-- Outcome of RedisCache.Get: a deserialized record, redis.Nil (miss), the
deleted / expired negative outcomes, or a transport error. -/
inductive CacheOutcome where
  | hit (u : Row)
  | errMiss
  | errDeleted
  | errExpired
  | errFatal
deriving DecidableEq

/-- RedisCache.Get: miss on absent key; ErrURLDeleted if the entry is marked
deleted; ErrURLExpired if its expire_at is past; otherwise rebuild the record. -/
def cacheGet (c : Cache) (code : String) (now : Int) : CacheOutcome :=
  match c with
  | .down => .errFatal
  | .up m =>
    match m.lookup code with
    | none => .errMiss
    | some cached =>
      if cached.isDeleted then .errDeleted
      else if isPast cached.expireAt now then .errExpired
      else .hit { code := code, longURL := cached.longURL,
                  createdAt := cached.createdAt, expireAt := cached.expireAt,
                  isDeleted := cached.isDeleted }

/-- RedisCache.Set: serialize the record under its key (newest binding wins on
lookup).  The SET is issued unconditionally; the expiration argument it carries
is computed by effectiveTTL. -/
def cacheSet (c : Cache) (code : String) (u : Row) : Cache :=
  match c with
  | .down => .down
  | .up m =>
    .up ((code, { longURL := u.longURL, expireAt := u.expireAt,
                  isDeleted := u.isDeleted, createdAt := u.createdAt }) :: m)

/-- RedisCache.SetNegative: store the tombstone CachedURL with is_deleted true
and zero-valued long_url / expire_at, created at the current instant. -/
def cacheSetNegative (c : Cache) (code : String) (now : Int) : Cache :=
  match c with
  | .down => .down
  | .up m =>
    .up ((code, { longURL := "", expireAt := none,
                  isDeleted := true, createdAt := now }) :: m)

/-- RedisCache.Delete: remove every binding of the key. -/
def cacheDelete (c : Cache) (code : String) : Cache :=
  match c with
  | .down => .down
  | .up m => .up (m.filter (fun p => !(p.1 == code)))

/-- The TTL computation inside RedisCache.Set, in seconds: start from the
configured positive TTL, lower it to timeUntilExpiry = expire_at − now when
that is smaller, then add the 60-second buffer whenever the result is
positive. -/
def effectiveTTL (positiveTTL : Int) (expireAt : Option Int) (now : Int) : Int :=
  let ttl := positiveTTL
  let ttl :=
    match expireAt with
    | none => ttl
    | some e => if e - now < ttl then e - now else ttl
  if 0 < ttl then ttl + 60 else ttl

/-!  Durable store: PostgresRepo over the short_urls table, modelled as a list
of rows (insertion order; the code column is kept unique by CreateURL). -/

/-- Errors of the repository read/delete paths. -/
inductive RepoErr where
  | notFound
  | expired
deriving DecidableEq

/-- PostgresRepo.GetURLByCode: SELECT ... WHERE code = $1 AND is_deleted =
false; a surviving row past its expire_at yields ErrURLExpired. -/
def storeGetByCode (db : List Row) (code : String) (now : Int) : Except RepoErr Row :=
  match db.find? (fun r => r.code == code && !r.isDeleted) with
  | none => .error .notFound
  | some r => if isPast r.expireAt now then .error .expired else .ok r

/-- PostgresRepo.CreateURL: INSERT; the unique index on code rejects any
duplicate code, deleted or not. -/
def repoCreateURL (db : List Row) (r : Row) : Except Unit (List Row) :=
  if db.any (fun x => x.code == r.code) then .error ()
  else .ok (db ++ [r])

/-- PostgresRepo.DeleteURL: UPDATE short_urls SET is_deleted = true WHERE code
= $1 (no is_deleted guard); rowsAffected = 0, i.e. no row with the code at
all, yields ErrURLNotFound. -/
def repoDeleteURL (db : List Row) (code : String) : Except RepoErr (List Row) :=
  if db.any (fun r => r.code == code) then
    .ok (db.map (fun r => if r.code == code then { r with isDeleted := true } else r))
  else .error .notFound

/-!  Lookup/Mutation service: ShortenerService of internal/service/shortener.go.
The click-recording side effects carry no service-visible state and are not
modelled; the storeCalled flag records whether the resolve path reached the
repository. -/

/-- Errors the service resolve path can surface. -/
inductive ResolveErr where
  | notFound
  | deleted
  | expired
deriving DecidableEq

deriving instance DecidableEq for Except

/-- Result of GetLongURL together with whether the repository was consulted
and the cache state the call leaves behind. -/
structure ResolveOut where
  result : Except ResolveErr Row
  storeCalled : Bool
  cache : Cache
deriving DecidableEq

/-- GetLongURL: cache first; a hit returns immediately; ErrURLDeleted and
ErrURLExpired return without touching the store; a miss or any other cache
error falls through to the repository, setting the negative cache on
not-found and warming the cache on success. -/
def getLongURL (db : List Row) (c : Cache) (code : String) (now : Int) : ResolveOut :=
  match cacheGet c code now with
  | .hit u => { result := .ok u, storeCalled := false, cache := c }
  | .errDeleted => { result := .error .deleted, storeCalled := false, cache := c }
  | .errExpired => { result := .error .expired, storeCalled := false, cache := c }
  | .errMiss | .errFatal =>
    match storeGetByCode db code now with
    | .error .notFound =>
      { result := .error .notFound, storeCalled := true,
        cache := cacheSetNegative c code now }
    | .error .expired =>
      { result := .error .expired, storeCalled := true, cache := c }
    | .ok r =>
      { result := .ok r, storeCalled := true, cache := cacheSet c code r }

/-- Errors of CreateShortURL. -/
inductive CreateErr where
  | invalidURL
  | aliasExists
  | storeFailed
deriving DecidableEq

/-- The create request: url, optional custom alias, optional expiry. -/
structure CreateReq where
  url : String
  customAlias : Option String
  expireAt : Option Int
deriving DecidableEq

/-- The create response: code, short URL, long URL, expiry. -/
structure CreateResp where
  code : String
  shortURL : String
  longURL : String
  expireAt : Option Int
deriving DecidableEq

/-- codeExists of the service: a cache hit means exists; any cache error goes
on to the repository, where only a fetched row counts as existing (the error
from an expired row is discarded by the caller). -/
def codeExists (db : List Row) (c : Cache) (code : String) (now : Int) : Bool :=
  match cacheGet c code now with
  | .hit _ => true
  | _ =>
    match storeGetByCode db code now with
    | .error _ => false
    | .ok _ => true

/-- The generated-code retry loop of CreateShortURL at attempt i with `left`
iterations remaining: each iteration assigns code := gens i; the loop breaks
on the first code whose existence check is false; the last iteration's code
is kept either way. -/
def pickCodeFrom (db : List Row) (c : Cache) (now : Int) (gens : Nat → String) :
    Nat → Nat → String
  | i, 0 => gens i
  | i, 1 => gens i
  | i, left + 2 =>
    if codeExists db c (gens i) now then pickCodeFrom db c now gens (i + 1) (left + 1)
    else gens i

/-- The whole retry loop: 10 attempts starting at index 0. -/
def pickCode (db : List Row) (c : Cache) (now : Int) (gens : Nat → String) : String :=
  pickCodeFrom db c now gens 0 10

/-- The persistence tail of CreateShortURL: build the row (is_deleted false,
created_at server-assigned), insert it, warm the cache best-effort, and build
the response. -/
def finishCreate (baseURL : String) (db : List Row) (c : Cache) (req : CreateReq)
    (code : String) (now : Int) :
    Except CreateErr (CreateResp × List Row × Cache) :=
  let row : Row :=
    { code := code, longURL := req.url, createdAt := now,
      expireAt := req.expireAt, isDeleted := false }
  match repoCreateURL db row with
  | .error _ => .error .storeFailed
  | .ok db' =>
    .ok ({ code := code, shortURL := baseURL ++ "/" ++ code,
           longURL := req.url, expireAt := req.expireAt },
         db', cacheSet c code row)

/-- CreateShortURL: validate the URL (the pure validateURL outcome is the
urlValid input), derive the custom alias through GenerateCustomCode (the
derive input) and reject it when it already exists, or run the generated-code
retry loop, then persist and warm.  gens enumerates the successive
GenerateCode results. -/
def createShortURL (baseURL : String) (db : List Row) (c : Cache) (req : CreateReq)
    (now : Int) (urlValid : Bool) (derive : String → String) (gens : Nat → String) :
    Except CreateErr (CreateResp × List Row × Cache) :=
  if !urlValid then .error .invalidURL
  else
    match req.customAlias with
    | some a =>
      if a ≠ "" then
        let code := derive a
        if codeExists db c code now then .error .aliasExists
        else finishCreate baseURL db c req code now
      else finishCreate baseURL db c req (pickCode db c now gens) now
    | none => finishCreate baseURL db c req (pickCode db c now gens) now

/-- Service DeleteURL: repository soft delete, then best-effort cache
invalidation. -/
def deleteURL (db : List Row) (c : Cache) (code : String) :
    Except RepoErr (List Row × Cache) :=
  match repoDeleteURL db code with
  | .error e => .error e
  | .ok db' => .ok (db', cacheDelete c code)

/-!  Admission controller: the cleanup sweep of internal/rate/limiter.go.  The
per-client table is a list of (client key, last-reference instant); the Go map
stores no last-access data, and the sweep condition never reads the entry, so
the instant is carried only to state the eviction property.  cutoff is
sweepNow − 10 minutes; the body deletes an entry when time.Since(cutoff),
evaluated at instant sinceNow, is positive. -/
def cleanupSweep (table : List (String × Int)) (sweepNow sinceNow : Int) :
    List (String × Int) :=
  let cutoff := sweepNow - 600
  table.filter (fun _ => !(decide (0 < sinceNow - cutoff)))

theorem b62_mem (n : Nat) : b62 n ∈ base62Chars := by
  have hlt : n % 62 < base62Chars.length := by
    have : n % 62 < 62 := Nat.mod_lt _ (by norm_num)
    simpa [base62Chars] using this
  rw [b62, base62Chars.getD_eq_getElem _ hlt]
  exact List.getElem_mem hlt

theorem toBase62Digits_mem (n : Nat) : ∀ c ∈ toBase62Digits n, c ∈ base62Chars := by
  induction n using Nat.strong_induction_on with
  | _ n ih =>
    rw [toBase62Digits]
    split
    · intro c hc; simp at hc
    · intro c hc
      rcases List.mem_cons.mp hc with h | h
      · subst h; exact b62_mem _
      · exact ih (n / 62) (Nat.div_lt_self (Nat.pos_of_ne_zero (by assumption)) (by norm_num)) c h

theorem toBase62_mem (n : Nat) : ∀ c ∈ toBase62 n, c ∈ base62Chars := by
  intro c hc
  exact toBase62Digits_mem n c (List.mem_reverse.mp hc)

theorem generateRandomSuffix_mem (len : Nat) (o : Nat → Nat) :
    ∀ c ∈ generateRandomSuffix len o, c ∈ base62Chars := by
  intro c hc
  rcases List.mem_map.mp hc with ⟨i, _, rfl⟩
  exact b62_mem _

theorem generateRandomSuffix_length (len : Nat) (o : Nat → Nat) :
    (generateRandomSuffix len o).length = len := by
  simp [generateRandomSuffix]

/-!  Theorems for the frozen claims. -/

/-- Claim C8: every GenerateCode() call returns exactly codeLength characters,
each drawn from the 62-character alphabet 0-9A-Za-z; a shorter base-62
encoding of the identifier is padded with random base-62 characters and a
longer one is truncated to codeLength. -/
theorem generateCode_length_alphabet (g idVal : Nat) (o : Nat → Nat) :
    (generateCode g idVal o).length = g ∧
    ∀ c ∈ generateCode g idVal o, c ∈ base62Chars := by
  have hmem0 := toBase62_mem idVal
  simp only [generateCode]
  set code2 :=
    if (toBase62 idVal).length < g then
      toBase62 idVal ++ generateRandomSuffix (g - (toBase62 idVal).length) o
    else toBase62 idVal with hc2
  have hmem2 : ∀ c ∈ code2, c ∈ base62Chars := by
    rw [hc2]
    split
    · intro c hc
      rcases List.mem_append.mp hc with h | h
      · exact hmem0 c h
      · exact generateRandomSuffix_mem _ o c h
    · exact hmem0
  have hlen2 : g ≤ code2.length := by
    rw [hc2]
    split
    · simp only [List.length_append, generateRandomSuffix_length]
      omega
    · omega
  constructor
  · split
    · simp only [List.length_take]
      omega
    · omega
  · split
    · intro c hc
      exact hmem2 c (List.mem_of_mem_take hc)
    · exact hmem2

/-- Claim C6 counterexample: Derive does not remove characters outside
[0-9A-Za-z].  With every random draw fixed to index 0, Derive(" my url ")
computes to "my0url00" — the inner space is replaced by a base-62 character,
so the result is not "myurl" followed by any suffix. -/
theorem derive_normalization_counterexample :
    ¬ ∃ s : List Char,
        generateCustomCode 8 ((" my url ").data) (fun _ => 0) (fun _ => 0) 0 (fun _ => 0)
          = (("myurl").data) ++ s := by
  rintro ⟨s, h⟩
  rw [show generateCustomCode 8 ((" my url ").data) (fun _ => 0) (fun _ => 0) 0 (fun _ => 0)
        = (("my0url00").data) from rfl] at h
  have h5 := congrArg (List.take 5) h
  have h2 : ((("myurl").data) ++ s).take 5 = (("myurl").data) :=
    List.take_left' rfl
  rw [h2] at h5
  exact absurd h5 (by decide)

/-- Claim C6 (amended): Derive trims surrounding whitespace, falls back to
Generate() when the trimmed alias is empty, and REPLACES (rather than
removes) every remaining character outside [0-9A-Za-z] with a base-62
character before padding with random base-62 characters to codeLength or
truncating; hence Derive(" my url ") is "my", a base-62 replacement
character, "url", and a random base-62 suffix of length codeLength − 6. -/
theorem derive_normalization_amended (sanO padO genO : Nat → Nat) (idVal : Nat)
    (custom : List Char) (h : trimSpace custom = []) :
    (generateCustomCode 8 ((" my url ").data) sanO padO idVal genO
        = ['m', 'y', b62 (sanO 2), 'u', 'r', 'l', b62 (padO 0), b62 (padO 1)] ∧
      b62 (sanO 2) ∈ base62Chars ∧
      b62 (padO 0) ∈ base62Chars ∧ b62 (padO 1) ∈ base62Chars) ∧
    generateCustomCode 8 custom sanO padO idVal genO = generateCode 8 idVal genO := by
  refine ⟨⟨rfl, b62_mem _, b62_mem _, b62_mem _⟩, ?_⟩
  simp [generateCustomCode, h]

/-- Witness for the amended C6 theorem at concrete inputs. -/
theorem derive_normalization_amended_witness :
    trimSpace (("  ").data) = [] ∧
    ((generateCustomCode 8 ((" my url ").data) (fun _ => 0) (fun _ => 0) 0 (fun _ => 0)
        = ['m', 'y', b62 0, 'u', 'r', 'l', b62 0, b62 0] ∧
      b62 0 ∈ base62Chars ∧ b62 0 ∈ base62Chars ∧ b62 0 ∈ base62Chars) ∧
     generateCustomCode 8 (("  ").data) (fun _ => 0) (fun _ => 0) 0 (fun _ => 0)
        = generateCode 8 0 (fun _ => 0)) :=
  ⟨by decide,
   derive_normalization_amended (fun _ => 0) (fun _ => 0) (fun _ => 0) 0
     (("  ").data) (by decide)⟩

theorem finishCreate_ok (baseURL : String) (db : List Row) (c : Cache)
    (req : CreateReq) (code : String) (now : Int) (resp : CreateResp)
    (db' : List Row) (c' : Cache)
    (hf : finishCreate baseURL db c req code now = .ok (resp, db', c')) :
    resp.code = code ∧
    db' = db ++ [⟨code, req.url, now, req.expireAt, false⟩] ∧
    c' = cacheSet c code ⟨code, req.url, now, req.expireAt, false⟩ ∧
    (db.any fun x => x.code == code) = false := by
  by_cases hany : (db.any fun x => x.code == code) = true
  · simp [finishCreate, repoCreateURL, hany] at hf
  · rw [Bool.not_eq_true] at hany
    simp [finishCreate, repoCreateURL, hany] at hf
    obtain ⟨h1, h2, h3⟩ := hf
    exact ⟨by rw [← h1], h2.symm, h3.symm, hany⟩

theorem resolve_after_insert (db : List Row) (c : Cache) (code L : String)
    (expAt : Option Int) (now now' : Int)
    (hany : (db.any fun x => x.code == code) = false)
    (hexp : isPast expAt now' = false) :
    ∃ u : Row,
      (getLongURL (db ++ [⟨code, L, now, expAt, false⟩])
          (cacheSet c code ⟨code, L, now, expAt, false⟩) code now').result = .ok u ∧
      u.longURL = L := by
  have hfind : db.find? (fun r => r.code == code && !r.isDeleted) = none := by
    rw [List.find?_eq_none]
    intro r hr hp
    rw [Bool.and_eq_true] at hp
    exact absurd hp.1 (by simpa using (List.any_eq_false.mp hany r hr))
  cases c with
  | down =>
    refine ⟨⟨code, L, now, expAt, false⟩, ?_, rfl⟩
    simp only [cacheSet, getLongURL, cacheGet, storeGetByCode, List.find?_append, hfind,
      Option.none_or, List.find?]
    simp [hexp]
  | up m =>
    refine ⟨⟨code, L, now, expAt, false⟩, ?_, rfl⟩
    simp [cacheSet, getLongURL, cacheGet, List.lookup_cons_self, hexp]

/-- Claim C1: creating a short URL for a long URL L and then resolving the
returned code yields a record whose long_url is L, at any instant at which
the record has not expired (the freshly created row is not deleted). -/
theorem create_resolve_roundtrip (baseURL : String) (db : List Row) (c : Cache)
    (req : CreateReq) (now now' : Int) (urlValid : Bool) (derive : String → String)
    (gens : Nat → String) (resp : CreateResp) (db' : List Row) (c' : Cache)
    (hc : createShortURL baseURL db c req now urlValid derive gens = .ok (resp, db', c'))
    (hexp : isPast req.expireAt now' = false) :
    ∃ u : Row, (getLongURL db' c' resp.code now').result = .ok u ∧
      u.longURL = req.url := by
  have hfin : ∃ cd, finishCreate baseURL db c req cd now = .ok (resp, db', c') := by
    unfold createShortURL at hc
    split at hc
    · exact absurd hc (by simp)
    · split at hc
      · split at hc
        · dsimp only at hc
          split at hc
          · exact absurd hc (by simp)
          · exact ⟨_, hc⟩
        · exact ⟨_, hc⟩
      · exact ⟨_, hc⟩
  obtain ⟨cd, hf⟩ := hfin
  obtain ⟨hcode, hdb, hcache, hany⟩ := finishCreate_ok _ _ _ _ _ _ _ _ _ hf
  rw [hcode, hdb, hcache]
  exact resolve_after_insert db c cd req.url req.expireAt now now' hany hexp

/-- Witness for the C1 round-trip theorem at concrete inputs. -/
theorem create_resolve_roundtrip_witness :
    ∃ u : Row,
      (getLongURL [⟨"c0", "http://y", 0, none, false⟩]
          (.up [("c0", ⟨"http://y", none, false, 0⟩)])
          (CreateResp.code ⟨"c0", "b/c0", "http://y", none⟩) 0).result = .ok u ∧
      u.longURL = "http://y" :=
  create_resolve_roundtrip "b" [] (.up []) ⟨"http://y", none, none⟩ 0 0 true
    (fun a => a) (fun _ => "c0") ⟨"c0", "b/c0", "http://y", none⟩
    [⟨"c0", "http://y", 0, none, false⟩] (.up [("c0", ⟨"http://y", none, false, 0⟩)])
    (by decide) (by decide)

/-- Claim C2: a cache outcome of Deleted or Expired makes Resolve return Gone
without consulting the store; a cache miss and a failing cache both fall
through to the store, so with the cache failing on every call resolving a
non-expired code still succeeds via the store. -/
theorem resolve_error_dispatch (db : List Row) (code : String) (now : Int)
    (r : Row) (u v : CachedURL) (e : Int)
    (hstore : storeGetByCode db code now = .ok r)
    (hu : u.isDeleted = true)
    (hv : v.isDeleted = false) (hve : v.expireAt = some e) (he : e < now) :
    ((getLongURL db (.up [(code, u)]) code now).result = .error .deleted ∧
     (getLongURL db (.up [(code, u)]) code now).storeCalled = false) ∧
    ((getLongURL db (.up [(code, v)]) code now).result = .error .expired ∧
     (getLongURL db (.up [(code, v)]) code now).storeCalled = false) ∧
    ((getLongURL db (.up []) code now).result = .ok r ∧
     (getLongURL db (.up []) code now).storeCalled = true) ∧
    ((getLongURL db .down code now).result = .ok r ∧
     (getLongURL db .down code now).storeCalled = true) := by
  refine ⟨⟨?_, ?_⟩, ⟨?_, ?_⟩, ⟨?_, ?_⟩, ⟨?_, ?_⟩⟩ <;>
    simp [getLongURL, cacheGet, List.lookup_cons_self, hu, hv, hve, isPast, he, hstore]

/-- Witness for the C2 dispatch theorem at concrete inputs. -/
theorem resolve_error_dispatch_witness :
    ((getLongURL [⟨"c", "L", 0, none, false⟩] (.up [("c", ⟨"", none, true, 0⟩)]) "c" 0).result
        = .error .deleted ∧
     (getLongURL [⟨"c", "L", 0, none, false⟩] (.up [("c", ⟨"", none, true, 0⟩)]) "c" 0).storeCalled
        = false) ∧
    ((getLongURL [⟨"c", "L", 0, none, false⟩] (.up [("c", ⟨"L", some (-1), false, 0⟩)]) "c" 0).result
        = .error .expired ∧
     (getLongURL [⟨"c", "L", 0, none, false⟩] (.up [("c", ⟨"L", some (-1), false, 0⟩)]) "c" 0).storeCalled
        = false) ∧
    ((getLongURL [⟨"c", "L", 0, none, false⟩] (.up []) "c" 0).result
        = .ok ⟨"c", "L", 0, none, false⟩ ∧
     (getLongURL [⟨"c", "L", 0, none, false⟩] (.up []) "c" 0).storeCalled = true) ∧
    ((getLongURL [⟨"c", "L", 0, none, false⟩] .down "c" 0).result
        = .ok ⟨"c", "L", 0, none, false⟩ ∧
     (getLongURL [⟨"c", "L", 0, none, false⟩] .down "c" 0).storeCalled = true) :=
  resolve_error_dispatch [⟨"c", "L", 0, none, false⟩] "c" 0
    ⟨"c", "L", 0, none, false⟩ ⟨"", none, true, 0⟩ ⟨"L", some (-1), false, 0⟩ (-1)
    (by decide) (by decide) (by decide) (by decide) (by decide)

/-- Claim C3 counterexample: the soft-delete UPDATE has no is_deleted guard,
so a second Delete of the same code matches the already-deleted row and
succeeds again instead of returning NotFound. -/
theorem delete_twice_counterexample :
    deleteURL [⟨"abc", "http://x", 0, none, false⟩] (.up []) "abc"
      = .ok ([⟨"abc", "http://x", 0, none, true⟩], .up []) ∧
    deleteURL [⟨"abc", "http://x", 0, none, true⟩] (.up []) "abc"
      = .ok ([⟨"abc", "http://x", 0, none, true⟩], .up []) ∧
    deleteURL [⟨"abc", "http://x", 0, none, true⟩] (.up []) "abc"
      ≠ .error RepoErr.notFound := by decide

/-- Claim C3 (amended): after Delete(c) succeeds, a second Delete(c) succeeds
again (the UPDATE matches the row regardless of is_deleted) and leaves the
rows unchanged; the row's is_deleted remains true; NotFound arises only when
no row with the code exists at all. -/
theorem delete_second_call_amended (db : List Row) (c : Cache) (code : String)
    (db' : List Row) (c' : Cache)
    (h : deleteURL db c code = .ok (db', c')) :
    deleteURL db' c' code = .ok (db', cacheDelete c' code) ∧
    ∀ r ∈ db', r.code = code → r.isDeleted = true := by
  by_cases hany : (db.any fun r => r.code == code) = true
  · have hd : deleteURL db c code
        = .ok (db.map (fun r => if r.code == code then { r with isDeleted := true } else r),
               cacheDelete c code) := by
      unfold deleteURL repoDeleteURL
      rw [if_pos hany]
    have h2 := hd.symm.trans h
    injection h2 with h3
    injection h3 with hdb hc
    subst hdb
    subst hc
    have hmap : ∀ r ∈ db.map (fun r => if r.code == code then { r with isDeleted := true } else r),
        r.code = code → r.isDeleted = true := by
      intro r hr hcode
      rcases List.mem_map.mp hr with ⟨r0, hr0, rfl⟩
      by_cases h0 : (r0.code == code) = true
      · simp [h0]
      · rw [if_neg (by simpa using h0)] at hcode ⊢
        exact absurd hcode (by simpa using h0)
    have hany' :
        ((db.map (fun r => if r.code == code then { r with isDeleted := true } else r)).any
          fun r => r.code == code) = true := by
      rw [List.any_eq_true] at hany ⊢
      obtain ⟨r0, hr0, hp⟩ := hany
      refine ⟨if r0.code == code then { r0 with isDeleted := true } else r0,
        List.mem_map_of_mem _ hr0, ?_⟩
      simp [hp]
    have hfix :
        (db.map (fun r => if r.code == code then { r with isDeleted := true } else r)).map
            (fun r => if r.code == code then { r with isDeleted := true } else r)
        = db.map (fun r => if r.code == code then { r with isDeleted := true } else r) := by
      conv_rhs =>
        rw [← List.map_id
          (db.map (fun r => if r.code == code then { r with isDeleted := true } else r))]
      apply List.map_congr_left
      intro r hr
      by_cases h0 : (r.code == code) = true
      · have hdel := hmap r hr (by simpa using h0)
        cases r
        simp_all
      · simp [if_neg (by simpa using h0)]
    refine ⟨?_, hmap⟩
    unfold deleteURL repoDeleteURL
    rw [if_pos hany', hfix]
  · have hd : deleteURL db c code = .error RepoErr.notFound := by
      unfold deleteURL repoDeleteURL
      rw [if_neg hany]
    rw [hd] at h
    exact absurd h (by simp)

/-- Witness for the amended C3 theorem at concrete inputs. -/
theorem delete_second_call_amended_witness :
    deleteURL [⟨"xyz", "http://x", 0, none, true⟩] (.up []) "xyz"
      = .ok ([⟨"xyz", "http://x", 0, none, true⟩], cacheDelete (.up []) "xyz") ∧
    ∀ r ∈ [(⟨"xyz", "http://x", 0, none, true⟩ : Row)], r.code = "xyz" → r.isDeleted = true :=
  delete_second_call_amended [⟨"xyz", "http://x", 0, none, false⟩] (.up []) "xyz"
    [⟨"xyz", "http://x", 0, none, true⟩] (.up []) (by decide)

/-- Claim C4 counterexample: after SetNegative("abc") the tombstone makes
Resolve("abc") return the Deleted outcome (surfaced as 410 Gone), not
NotFound, though indeed without calling the store. -/
theorem negative_cache_counterexample :
    (getLongURL [] (cacheSetNegative (.up []) "abc" 0) "abc" 0).result = .error .deleted ∧
    (getLongURL [] (cacheSetNegative (.up []) "abc" 0) "abc" 0).result ≠ .error .notFound ∧
    (getLongURL [] (cacheSetNegative (.up []) "abc" 0) "abc" 0).storeCalled = false := by
  decide

/-- Claim C4 (amended): after SetNegative(c) writes its tombstone, every
Resolve(c) while the tombstone entry is present returns the Deleted outcome
(ErrURLDeleted, surfaced as Gone) — not NotFound — and does so without
calling the store. -/
theorem negative_cache_suppression_amended (db : List Row)
    (m : List (String × CachedURL)) (code : String) (now now' : Int) :
    (getLongURL db (cacheSetNegative (.up m) code now) code now').result
      = .error .deleted ∧
    (getLongURL db (cacheSetNegative (.up m) code now) code now').storeCalled = false := by
  constructor <;> simp [getLongURL, cacheGet, cacheSetNegative, List.lookup_cons_self]

/-- Claim C5 counterexample: with positiveTTL = 3600 s and an entry expiring
7200 s from now, the TTL actually written is 3660 s: it exceeds positiveTTL
and differs from min(positiveTTL, timeUntilExpiry + 60); moreover with the
expiry 5 s in the past the computed TTL is −5 — the write is not skipped,
the code merely omits the buffer. -/
theorem ttl_clipping_counterexample :
    effectiveTTL 3600 (some 7200) 0 = 3660 ∧
    ¬ effectiveTTL 3600 (some 7200) 0 ≤ 3600 ∧
    effectiveTTL 3600 (some 7200) 0 ≠ min 3600 (7200 + 60) ∧
    effectiveTTL 3600 (some (-5)) 0 = -5 := by
  refine ⟨by decide, by decide, by decide, by decide⟩

/-- Claim C5 (amended): the TTL written by Cache.Set for an entry expiring at
now + d is min(positiveTTL, d) plus the 60 s buffer when that min is
positive, and the unbuffered nonpositive min otherwise (with the SET still
issued); it never exceeds d + 60 s and never exceeds positiveTTL + 60 s, but
it can exceed positiveTTL itself. -/
theorem effectiveTTL_amended (p d now : Int) :
    effectiveTTL p (some (now + d)) now
      = (if 0 < min p d then min p d + 60 else min p d) ∧
    effectiveTTL p (some (now + d)) now ≤ d + 60 ∧
    effectiveTTL p (some (now + d)) now ≤ p + 60 ∧
    effectiveTTL p none now = (if 0 < p then p + 60 else p) := by
  have harith : now + d - now = d := by ring
  refine ⟨?_, ?_, ?_, ?_⟩ <;>
    simp only [effectiveTTL, harith, min_def] <;>
    split_ifs <;> omega

theorem pickCodeFrom_all_exist (db : List Row) (c : Cache) (now : Int)
    (gens : Nat → String) :
    ∀ left i, (∀ k, i ≤ k → k < i + left → codeExists db c (gens k) now = true) →
      pickCodeFrom db c now gens i (left + 1) = gens (i + left) := by
  intro left
  induction left with
  | zero => intro i _; simp [pickCodeFrom]
  | succ n ih =>
    intro i h
    have hi : codeExists db c (gens i) now = true := h i (le_refl i) (by omega)
    have hrec := ih (i + 1) (fun k hk1 hk2 => h k (by omega) (by omega))
    have hidx : i + 1 + n = i + (n + 1) := by omega
    simp only [pickCodeFrom, hi, if_true]
    rw [hrec, hidx]

theorem pickCodeFrom_first_break (db : List Row) (c : Cache) (now : Int)
    (gens2 : Nat → String) :
    ∀ left i j, i ≤ j → j + 1 ≤ i + left →
      (∀ l, i ≤ l → l < j → codeExists db c (gens2 l) now = true) →
      codeExists db c (gens2 j) now = false →
      pickCodeFrom db c now gens2 i left = gens2 j := by
  intro left
  induction left with
  | zero => intro i j h1 h2 _ _; omega
  | succ n ih =>
    intro i j h1 h2 hb hf
    cases n with
    | zero =>
      have hij : j = i := by omega
      subst hij
      simp [pickCodeFrom]
    | succ m =>
      by_cases hij : i = j
      · subst hij
        simp only [pickCodeFrom]
        rw [if_neg (by simp [hf])]
      · have hilt : i < j := by omega
        have hbi : codeExists db c (gens2 i) now = true := hb i (le_refl i) hilt
        simp only [pickCodeFrom, hbi, if_true]
        exact ih (i + 1) j (by omega) (by omega) (fun l hl1 hl2 => hb l (by omega) hl2) hf

/-- Claim C7 counterexample: with a cache entry that makes every generated
code test as existing, all 10 attempts collide, yet Create does not fail with
any CodeExhaustion error — it proceeds with the 10th code to the store insert
and here even succeeds. -/
theorem generate_exhaustion_counterexample :
    codeExists [] (.up [("dup", ⟨"http://z", none, false, 0⟩)]) "dup" 0 = true ∧
    createShortURL "b" [] (.up [("dup", ⟨"http://z", none, false, 0⟩)])
        ⟨"http://y", none, none⟩ 0 true (fun a => a) (fun _ => "dup")
      = .ok (⟨"dup", "b/dup", "http://y", none⟩,
             [⟨"dup", "http://y", 0, none, false⟩],
             .up [("dup", ⟨"http://y", none, false, 0⟩),
                  ("dup", ⟨"http://z", none, false, 0⟩)]) := by
  refine ⟨by decide, by decide⟩

/-- Claim C7 (amended): without a custom alias, Create tries at most 10
generated codes and accepts the first whose existence check is false; when
all 10 checks report an existing code it does not fail with CodeExhaustion —
it proceeds to the store insert with the 10th generated code (and the store's
unique index, not the loop, rejects an actual duplicate). -/
theorem generate_retry_amended (baseURL : String) (db : List Row) (c : Cache)
    (req : CreateReq) (now : Int) (gens gens2 : Nat → String) (j : Nat)
    (halias : req.customAlias = none)
    (hall : ∀ i, i < 10 → codeExists db c (gens i) now = true)
    (hj : j < 10)
    (hbefore : ∀ i, i < j → codeExists db c (gens2 i) now = true)
    (hfound : codeExists db c (gens2 j) now = false) :
    pickCode db c now gens = gens 9 ∧
    pickCode db c now gens2 = gens2 j ∧
    createShortURL baseURL db c req now true (fun a => a) gens
      = finishCreate baseURL db c req (gens 9) now := by
  have h1 : pickCode db c now gens = gens 9 := by
    have := pickCodeFrom_all_exist db c now gens 9 0
      (fun k _ hk => hall k (by omega))
    simpa [pickCode] using this
  have h2 : pickCode db c now gens2 = gens2 j :=
    pickCodeFrom_first_break db c now gens2 10 0 j (by omega) (by omega)
      (fun l _ hl => hbefore l hl) hfound
  refine ⟨h1, h2, ?_⟩
  unfold createShortURL
  simp only [halias, Bool.not_true, Bool.false_eq_true, if_false, h1]

/-- Witness for the amended C7 theorem at concrete inputs. -/
theorem generate_retry_amended_witness :
    pickCode [] (.up [("dup", ⟨"http://z", none, false, 0⟩)]) 0 (fun _ => "dup") = "dup" ∧
    pickCode [] (.up [("dup", ⟨"http://z", none, false, 0⟩)]) 0 (fun _ => "new") = "new" ∧
    createShortURL "b" [] (.up [("dup", ⟨"http://z", none, false, 0⟩)])
        ⟨"http://y", none, none⟩ 0 true (fun a => a) (fun _ => "dup")
      = finishCreate "b" [] (.up [("dup", ⟨"http://z", none, false, 0⟩)])
          ⟨"http://y", none, none⟩ "dup" 0 :=
  generate_retry_amended "b" [] (.up [("dup", ⟨"http://z", none, false, 0⟩)])
    ⟨"http://y", none, none⟩ 0 (fun _ => "dup") (fun _ => "new") 0 rfl
    (fun _ _ => rfl) (by omega) (fun i hi => absurd hi (by omega)) (by decide)

/-- Claim C9: the sweep body compares the fixed instant cutoff = sweepNow −
10 min against the clock instead of against a per-entry last access, and the
comparison is true whenever the clock has not run backwards by over 10
minutes — so every sweep evicts every key, including keys referenced within
the last 10 minutes, and the table is empty after any single sweep. -/
theorem cleanup_sweep_clears_table (table : List (String × Int))
    (sweepNow sinceNow : Int) (h : sweepNow ≤ sinceNow) :
    cleanupSweep table sweepNow sinceNow = [] := by
  have hcond : 0 < sinceNow - (sweepNow - 600) := by omega
  simp only [cleanupSweep, decide_eq_true hcond, Bool.not_true]
  exact List.filter_eq_nil_iff.mpr (fun a _ => by simp [decide_eq_true hcond])

/-- Witness for the C9 theorem: a key last referenced at the very instant of
the sweep is evicted all the same. -/
theorem cleanup_sweep_clears_table_witness :
    (0 : Int) ≤ 0 ∧ cleanupSweep [("1.2.3.4", 0)] 0 0 = [] :=
  ⟨by decide, cleanup_sweep_clears_table [("1.2.3.4", 0)] 0 0 (by decide)⟩

/-- Claim C10: a soft-deleted row is invisible to the existence check (the
store read excludes deleted rows and the cache has no entry), so creating a
custom alias equal to a soft-deleted code passes the alias-exists check and
then fails at the store insert on the unique code index, surfacing as the
generic create failure rather than as the alias-exists conflict. -/
theorem softdeleted_alias_create (baseURL : String) (db : List Row)
    (m : List (String × CachedURL)) (code al : String) (now : Int)
    (req : CreateReq) (derive : String → String) (gens : Nat → String)
    (hreq : req.customAlias = some al) (hal : al ≠ "")
    (hd : derive al = code)
    (hm : m.lookup code = none)
    (hrow : (db.any fun r => r.code == code) = true)
    (hall : ∀ r ∈ db, r.code = code → r.isDeleted = true) :
    codeExists db (.up m) code now = false ∧
    createShortURL baseURL db (.up m) req now true derive gens
      = .error .storeFailed := by
  have hfind : db.find? (fun r => r.code == code && !r.isDeleted) = none := by
    rw [List.find?_eq_none]
    intro r hr hp
    rw [Bool.and_eq_true] at hp
    have h1 : r.code = code := by simpa using hp.1
    have h2 := hall r hr h1
    simp [h2] at hp
  have hex : codeExists db (.up m) code now = false := by
    simp [codeExists, cacheGet, hm, storeGetByCode, hfind]
  refine ⟨hex, ?_⟩
  unfold createShortURL
  simp only [hreq, Bool.not_true, Bool.false_eq_true, if_false]
  rw [if_pos hal]
  rw [hd, if_neg (by simp [hex])]
  simp [finishCreate, repoCreateURL, hrow]

/-- Witness for the C10 theorem at concrete inputs. -/
theorem softdeleted_alias_create_witness :
    codeExists [⟨"abc", "http://x", 0, none, true⟩] (.up []) "abc" 0 = false ∧
    createShortURL "b" [⟨"abc", "http://x", 0, none, true⟩] (.up [])
        ⟨"http://y", some "abc", none⟩ 0 true (fun a => a) (fun _ => "z")
      = .error .storeFailed :=
  softdeleted_alias_create "b" [⟨"abc", "http://x", 0, none, true⟩] [] "abc" "abc" 0
    ⟨"http://y", some "abc", none⟩ (fun a => a) (fun _ => "z")
    rfl (by decide) rfl rfl (by decide) (by decide)

end UrlShortener
